import Mathlib

/-!
A shallow embedding of the core of the `crypto-portfolio-tracker` repository
(multi-chain balance aggregation and caching), together with theorems checking
the natural-language specification against the code.

The embedding follows the Python sources:
  * `app/services/wallet_service.py`   (reconciliation engine, portfolio aggregator)
  * `app/services/ethereum_service.py` (EVM adapter)
  * `app/services/solana_service.py`   (Solana adapter)
  * `app/services/starknet_service.py` (Starknet adapter)
  * `app/services/price_service.py`    (price oracle)
  * `app/db/redis_cache.py`            (freshness cache)
  * `app/models/models.py`             (data model and unique constraints)

External effects (RPC responses, HTTP results, commit success) are passed in as
explicit parameters, and Python `Decimal` values are modelled by `ℚ` together
with an explicit model of the default `decimal` context rounding where the
claims depend on it.
-/

set_option autoImplicit false

/-! ## Python `decimal` model

`ethereum_service.py` line 85 computes `Decimal(balance_wei) / Decimal(10**18)`;
`starknet_service.py` line 111, `solana_service.py` line 86 and
`cosmos_service.py` line 118 do the analogous division by `10**decimals`.
Python `decimal` operates under the default context: results of division are
correctly rounded to 28 significant digits with ROUND_HALF_EVEN.
-/

/-- Number of decimal digits of a natural number, with fuel (structural, so the
kernel can evaluate it); `decimalDigitsAux n m` assumes `m` has at most `n`
digits. -/
def decimalDigitsAux : Nat → Nat → Nat
  | 0, _ => 0
  | fuel + 1, m => if m = 0 then 0 else decimalDigitsAux fuel (m / 10) + 1

/-- Number of decimal digits of `n` (`len(str(n))` in Python, `0` has one digit). -/
def decimalDigits (n : Nat) : Nat :=
  if n = 0 then 1 else decimalDigitsAux n n

/-- Round `n / 10 ^ k` to the nearest integer, ties to even (ROUND_HALF_EVEN,
the rounding mode of the default Python `decimal` context). -/
def roundHalfEvenDiv (n k : Nat) : Nat :=
  let d := 10 ^ k
  let q := n / d
  let r := n % d
  if d < 2 * r then q + 1
  else if 2 * r < d then q
  else if q % 2 = 1 then q + 1 else q

/-- Model of Python `Decimal(raw) / Decimal(10 ** d)` under the default
`decimal` context (28 significant digits, ROUND_HALF_EVEN).  Dividing by a
power of ten only shifts the decimal point, so the significant digits of the
exact quotient are exactly the digits of `raw`: when `raw` has at most 28
digits the division is exact, otherwise the trailing digits are rounded away
half-even. -/
def pyDecimalDivPow10 (raw d : Nat) : ℚ :=
  let n := decimalDigits raw
  if n ≤ 28 then (raw : ℚ) / 10 ^ d
  else ((roundHalfEvenDiv raw (n - 28) * 10 ^ (n - 28) : Nat) : ℚ) / 10 ^ d

/-! ## Keccak-256 and EIP-55

`wallet_service.py` line 39 normalises Ethereum addresses with
`ethereum_service.checksum_address`, which is `Web3.to_checksum_address`
(`ethereum_service.py` line 66): the EIP-55 mixed-case checksum, namely
legacy Keccak-256 (pad `0x01`, not SHA-3) of the lowercase hex body, with an
uppercase letter wherever the corresponding hash nibble is at least 8.
-/

/-- Left rotation of a 64-bit word (input assumed `< 2 ^ 64`). -/
def rotl64 (x n : Nat) : Nat :=
  ((x <<< n) % 2 ^ 64) ||| (x >>> (64 - n))

/-- The 24 Keccak-f[1600] round constants. -/
def keccakRC : List Nat :=
  [1, 32898, 9223372036854808714, 9223372039002292224] ++
    [32907, 2147483649, 9223372039002292353, 9223372036854808585] ++
    [138, 136, 2147516425, 2147483658] ++
    [2147516555, 9223372036854775947, 9223372036854808713, 9223372036854808579] ++
    [9223372036854808578, 9223372036854775936, 32778, 9223372039002259466] ++
    [9223372039002292353, 9223372036854808704, 2147483649, 9223372039002292232]

/-- The Keccak rotation offsets, indexed by lane position `x + 5 * y`. -/
def keccakRotOff : List Nat :=
  [0, 1, 62, 28, 27] ++ [36, 44, 6, 55, 20] ++ [3, 10, 43, 25, 39] ++
    [41, 45, 15, 21, 8] ++ [18, 2, 61, 56, 14]

/-- One round of Keccak-f[1600] (θ, ρ, π, χ, ι) on a 25-lane state. -/
def keccakRound (A : List Nat) (rc : Nat) : List Nat :=
  let get := fun (x y : Nat) => A.getD ((x % 5) + 5 * (y % 5)) 0
  let C := fun (x : Nat) => get x 0 ^^^ get x 1 ^^^ get x 2 ^^^ get x 3 ^^^ get x 4
  let D := fun (x : Nat) => C ((x + 4) % 5) ^^^ rotl64 (C ((x + 1) % 5)) 1
  let A1 := fun (x y : Nat) => get x y ^^^ D (x % 5)
  let B := fun (a b : Nat) =>
    let xs := (3 * b + a) % 5
    rotl64 (A1 xs a) (keccakRotOff.getD (xs + 5 * (a % 5)) 0)
  let chi := fun (a b : Nat) =>
    B a b ^^^ ((B ((a + 1) % 5) b ^^^ 0xFFFFFFFFFFFFFFFF) &&& B ((a + 2) % 5) b)
  (List.range 25).map (fun i =>
    if i = 0 then chi 0 0 ^^^ rc else chi (i % 5) (i / 5))

/-- The full Keccak-f[1600] permutation (24 rounds). -/
def keccakF (A : List Nat) : List Nat :=
  keccakRC.foldl keccakRound A

/-- Legacy Keccak multi-rate padding for rate 136 bytes: append `0x01`, zero
bytes, and a final `0x80` (merged into `0x81` when one byte is missing). -/
def keccakPad (msg : List Nat) : List Nat :=
  let padLen := 136 - msg.length % 136
  if padLen = 1 then msg ++ [0x81]
  else msg ++ [0x01] ++ List.replicate (padLen - 2) 0 ++ [0x80]

/-- Assemble a 64-bit lane from up to eight little-endian bytes. -/
def bytesToLane (bytes : List Nat) : Nat :=
  bytes.foldr (fun b acc => b + (acc <<< 8)) 0

/-- The 17 rate lanes of a 136-byte block. -/
def blockLanes (block : List Nat) : List Nat :=
  (List.range 17).map (fun j => bytesToLane ((block.drop (8 * j)).take 8))

/-- Absorb one 136-byte block into the sponge state. -/
def absorbBlock (A : List Nat) (block : List Nat) : List Nat :=
  let lanes := blockLanes block
  keccakF ((List.range 25).map (fun i => A.getD i 0 ^^^ lanes.getD i 0))

/-- Split a byte list into 136-byte chunks; the fuel bounds the number of
chunks so the recursion is structural. -/
def chunksOf136 : Nat → List Nat → List (List Nat)
  | 0, _ => []
  | _ + 1, [] => []
  | fuel + 1, bs => bs.take 136 :: chunksOf136 fuel (bs.drop 136)

/-- Keccak-256 (the legacy Keccak used by Ethereum, not NIST SHA-3) of a byte
string, as a list of 32 bytes. -/
def keccak256 (msg : List Nat) : List Nat :=
  let padded := keccakPad msg
  let blocks := chunksOf136 padded.length padded
  let A := blocks.foldl absorbBlock (List.replicate 25 0)
  (List.range 32).map (fun i => (A.getD (i / 8) 0 >>> (8 * (i % 8))) % 256)

/-- Whether a character is a hexadecimal digit. -/
def isHexDigitChar (c : Char) : Bool :=
  c.isDigit || ('a' ≤ c && c ≤ 'f') || ('A' ≤ c && c ≤ 'F')

/-- EIP-55 encoding of the 40 lowercase hex characters of an address body:
hash the ASCII bytes with Keccak-256 and uppercase every character whose
corresponding hash nibble is at least 8. -/
def eip55Encode (body : List Char) : List Char :=
  let hash := keccak256 (body.map Char.toNat)
  body.mapIdx (fun i c =>
    let byte := hash.getD (i / 2) 0
    let nib := if i % 2 = 0 then byte / 16 else byte % 16
    if 8 ≤ nib then c.toUpper else c)

/-- Model of `Web3.to_checksum_address` (`ethereum_service.py` line 66,
`checksum_address`): lowercase the 40-character hex body and re-case it by
EIP-55. -/
def checksum_address (address : String) : String :=
  let body := (address.drop 2).toList.map Char.toLower
  "0x" ++ String.mk (eip55Encode body)

/-- Whether a string is `0x` followed by exactly 40 hex digits (the prefix
test is on the character list, which is what `startswith("0x")` checks). -/
def is_hex_address (s : String) : Bool :=
  s.length = 42 && s.toList.take 2 == ['0', 'x'] && (s.drop 2).toList.all isHexDigitChar

/-- Whether the hex body mixes lowercase and uppercase letters (in that case
`web3` requires the EIP-55 checksum to match). -/
def isMixedCaseHex (s : String) : Bool :=
  let cs := (s.drop 2).toList
  cs.any (fun c => 'a' ≤ c && c ≤ 'f') && cs.any (fun c => 'A' ≤ c && c ≤ 'F')

/-- Model of `Web3.is_address` (`ethereum_service.py` line 53,
`is_valid_address`): a 42-character `0x`-prefixed hex string, and when it is
mixed-case its EIP-55 checksum must be valid. -/
def ethereum_is_valid_address (s : String) : Bool :=
  is_hex_address s && (!isMixedCaseHex s || checksum_address s == s)

/-! ## Solana address validation

`solana_service.py` line 61 validates an address with
`solders.Pubkey.from_string`, which base58-decodes the string and requires the
result to be exactly 32 bytes (strings longer than 44 characters are rejected
outright). -/

/-- The Bitcoin/Solana base58 alphabet. -/
def base58Alphabet : List Char :=
  "123456789ABCDEFGHJKLMNPQRSTUVWXYZabcdefghijkmnopqrstuvwxyz".toList

/-- Base58-decode a character list to a natural number; `none` when a character
is outside the alphabet. -/
def base58DecodeNat (cs : List Char) : Option Nat :=
  cs.foldl
    (fun acc c => acc.bind (fun a => (base58Alphabet.indexOf? c).map (fun i => a * 58 + i)))
    (some 0)

/-- Number of bytes in the big-endian byte representation of `n` (zero bytes
for `0`), with the same fuel trick as `decimalDigitsAux`. -/
def byteLengthAux : Nat → Nat → Nat
  | 0, _ => 0
  | fuel + 1, m => if m = 0 then 0 else byteLengthAux fuel (m / 256) + 1

/-- Model of `Pubkey.from_string` used as a validator (`solana_service.py`
line 61, `is_valid_address`): base58 decoding must succeed and yield exactly
32 bytes, counting each leading `1` as one zero byte. -/
def solana_is_valid_address (s : String) : Bool :=
  let cs := s.toList
  if 44 < cs.length then false
  else
    match base58DecodeNat cs with
    | none => false
    | some v =>
      let leadingOnes := (cs.takeWhile (fun c => c = '1')).length
      leadingOnes + byteLengthAux v v = 32

/-! ## Error taxonomy -/

/-- Network/adapter errors: a missing configuration, a transient transport
failure, or an RPC-level error. -/
inductive NetErr
  | notConfigured (msg : String)
  | timeout
  | httpError (code : Nat)
  | connectionError
  | rpcError (msg : String)
  deriving DecidableEq, Repr

/-! ## Price oracle (`price_service.py`)

`PriceService.get_price` (lines 29-83) checks the price cache, resolves the
symbol through the static `TOKEN_MAP`, and performs one HTTP request.  The
cached value, and the outcome of the HTTP request, are explicit parameters; a
Python exception raised by the request is the `Except.error` case and is caught
by the function's blanket `except` handlers, which return `None`.  (The
write-back of a fresh price into the cache is a side effect no claim observes
and is elided here.) -/

/-- The static symbol-to-CoinGecko-id table (`price_service.py` lines 18-27). -/
def TOKEN_MAP : List (String × String) :=
  [("ETH", "ethereum"), ("BTC", "bitcoin"), ("SOL", "solana"), ("USDC", "usd-coin"),
   ("USDT", "tether"), ("DAI", "dai"), ("WETH", "weth"), ("WBTC", "wrapped-bitcoin")]

/-- Model of Python `str.upper()` on ASCII token symbols. -/
def pyUpper (s : String) : String :=
  String.mk (s.toList.map Char.toUpper)

/-- Python truthiness of the cached price (`if cached_price:`): `None` and `0`
are falsy. -/
def price_cache_hit : Option ℚ → Bool
  | none => false
  | some c => c != 0

/-- Model of `PriceService.get_price` (lines 29-83).  `cachedPrice` is what
`cache.get` returned, `http` the outcome of the CoinGecko request, whose `ok`
payload is the `usd` field of the response (absent ⇒ `none`).  All raised
request errors are caught and become `none`; a zero or missing price is also
`none` (`if price:`). -/
def get_price (cachedPrice : Option ℚ) (sym : String) (http : Except NetErr (Option ℚ)) :
    Option ℚ :=
  if price_cache_hit cachedPrice then cachedPrice
  else
    match TOKEN_MAP.lookup (pyUpper sym) with
    | none => none
    | some _ =>
      match http with
      | .error _ => none
      | .ok none => none
      | .ok (some p) => if p = 0 then none else some p

/-! ## Freshness cache (`redis_cache.py`)

The cache stores JSON values under string keys; `wallet_service` only ever
stores the boolean `True` under `wallet:{id}:balances`.  We model the store as
an association list read through `List.lookup` (later `cache_set` entries
shadow older ones). -/

/-- The cache contents: string keys to boolean freshness flags. -/
abbrev CacheState := List (String × Bool)

/-- Model of `cache.get` (`redis_cache.py` line 38). -/
def cache_get (c : CacheState) (k : String) : Option Bool :=
  c.lookup k

/-- Model of `cache.set` (`redis_cache.py` line 60); the TTL is time-based
state no claim observes and is elided. -/
def cache_set (c : CacheState) (k : String) (v : Bool) : CacheState :=
  (k, v) :: c

/-! ## Data model (`models.py`)

`Wallet`, `Balance` and `BalanceHistory` rows; UUID primary keys are modelled
by opaque `Nat` identities where a claim needs them and elided otherwise, and
timestamps by a `Nat` instant passed in for `datetime.utcnow()`. -/

/-- Wallet identity. -/
abbrev WalletId := Nat

/-- A `wallets` row (`models.py` lines 48-68). -/
structure WalletRow where
  id : WalletId
  address : String
  chain : String
  label : Option String
  deriving DecidableEq, Repr

/-- A `balances` row (`models.py` lines 85-105); `token_address` is `none` for
native-token rows. -/
structure BalanceRow where
  wallet_id : WalletId
  token_symbol : String
  token_address : Option String
  balance : ℚ
  usd_value : Option ℚ
  last_updated : Nat
  deriving DecidableEq, Repr

/-- A `balance_history` row (`models.py` lines 123-135). -/
structure HistoryRow where
  wallet_id : WalletId
  token_symbol : String
  token_address : Option String
  balance : ℚ
  usd_value : Option ℚ
  recorded_at : Nat
  deriving DecidableEq, Repr

/-- The committed database state. -/
structure DBState where
  wallets : List WalletRow
  balances : List BalanceRow
  history : List HistoryRow
  deriving DecidableEq, Repr

/-! ## Chain adapters

Each adapter operation is modelled with its client state and the outcome of
its network request as parameters; the result records the value produced and
how many network requests were attempted (`netCalls`), so that "fails fast
without attempting network I/O" is expressible. -/

/-- Decidable equality for `Except`, used to evaluate witnesses. -/
instance {ε α : Type} [DecidableEq ε] [DecidableEq α] : DecidableEq (Except ε α)
  | .error e, .error e' =>
    if h : e = e' then isTrue (by rw [h])
    else isFalse (by intro hh; injection hh; contradiction)
  | .error _, .ok _ => isFalse (by intro h; cases h)
  | .ok _, .error _ => isFalse (by intro h; cases h)
  | .ok a, .ok a' =>
    if h : a = a' then isTrue (by rw [h])
    else isFalse (by intro hh; injection hh; contradiction)

/-- Outcome of one adapter operation: the produced value (or raised error) and
the number of network requests attempted. -/
structure NetResult (α : Type) where
  value : Except NetErr α
  netCalls : Nat
  deriving DecidableEq, Repr

/-- The error message raised by every Ethereum operation when `self.w3` is
`None` (`ethereum_service.py` lines 80, 106, 142, 172). -/
def ethNotConfiguredMsg : String :=
  "Ethereum RPC not configured"

/-- Model of `EthereumService.get_eth_balance` (lines 68-90): raise when no
client is configured, otherwise one `eth.get_balance` call whose wei result is
divided by `10 ** 18` in `Decimal` arithmetic; a raised `Web3Exception` is
logged and re-raised. -/
def eth_get_eth_balance (w3 : Option Unit) (rpc : Except NetErr Nat) : NetResult ℚ :=
  match w3 with
  | none => ⟨.error (.notConfigured ethNotConfiguredMsg), 0⟩
  | some _ =>
    match rpc with
    | .error e => ⟨.error e, 1⟩
    | .ok wei => ⟨.ok (pyDecimalDivPow10 wei 18), 1⟩

/-- Model of `EthereumService.get_erc20_balance` (lines 92-129): raise when no
client is configured, otherwise one `balanceOf` call divided by
`10 ** decimals` in `Decimal` arithmetic. -/
def eth_get_erc20_balance (w3 : Option Unit) (rpc : Except NetErr Nat) (decimals : Nat) :
    NetResult ℚ :=
  match w3 with
  | none => ⟨.error (.notConfigured ethNotConfiguredMsg), 0⟩
  | some _ =>
    match rpc with
    | .error e => ⟨.error e, 1⟩
    | .ok raw => ⟨.ok (pyDecimalDivPow10 raw decimals), 1⟩

/-- Model of `EthereumService.get_wallet_balances` (lines 131-162): raise when
no client is configured, otherwise fetch the ETH balance (its outcome is the
parameter, already converted) and include it only when positive; the token
part is a stub in the source. -/
def eth_get_wallet_balances (w3 : Option Unit) (ethBalance : Except NetErr ℚ) :
    NetResult (List (String × ℚ)) :=
  match w3 with
  | none => ⟨.error (.notConfigured ethNotConfiguredMsg), 0⟩
  | some _ =>
    match ethBalance with
    | .error e => ⟨.error e, 1⟩
    | .ok v => ⟨.ok (if 0 < v then [("ETH", v)] else []), 1⟩

/-- Model of `SolanaService.get_sol_balance` (`solana_service.py` lines
66-94): raise when the client is not connected, otherwise one `get_balance`
call; a `None` response value yields `Decimal(0)`, otherwise lamports are
divided by `10 ** 9` in `Decimal` arithmetic. -/
def solana_get_sol_balance (client : Option Unit) (rpc : Except NetErr (Option Nat)) :
    NetResult ℚ :=
  match client with
  | none => ⟨.error (.notConfigured "Solana service not connected"), 0⟩
  | some _ =>
    match rpc with
    | .error e => ⟨.error e, 1⟩
    | .ok none => ⟨.ok 0, 1⟩
    | .ok (some lamports) => ⟨.ok (pyDecimalDivPow10 lamports 9), 1⟩

/-- Model of `SolanaService.get_token_accounts` (`solana_service.py` lines
96-136): raise when the client is not connected, otherwise one
`get_token_accounts_by_owner` call whose response content is ignored — the
SPL account parsing is stubbed out in the source, so `token_balances` stays
empty; a raised error is logged and re-raised. -/
def solana_get_token_accounts (client : Option Unit) (rpc : Except NetErr Unit) :
    NetResult (List (String × ℚ)) :=
  match client with
  | none => ⟨.error (.notConfigured "Solana service not connected"), 0⟩
  | some _ =>
    match rpc with
    | .error e => ⟨.error e, 1⟩
    | .ok _ => ⟨.ok [], 1⟩

/-- Model of `SolanaService.get_wallet_balances` (`solana_service.py` lines
138-167): raise when the client is not connected, otherwise fetch the SOL
balance (included only when positive), then merge the SPL token balances from
`get_token_accounts`; any raised error is logged and re-raised. -/
def solana_get_wallet_balances (client : Option Unit) (solRpc : Except NetErr (Option Nat))
    (tokenRpc : Except NetErr Unit) : NetResult (List (String × ℚ)) :=
  match client with
  | none => ⟨.error (.notConfigured "Solana service not connected"), 0⟩
  | some c =>
    match (solana_get_sol_balance (some c) solRpc).value with
    | .error e => ⟨.error e, 1⟩
    | .ok v =>
      match (solana_get_token_accounts (some c) tokenRpc).value with
      | .error e => ⟨.error e, 2⟩
      | .ok toks => ⟨.ok ((if 0 < v then [("SOL", v)] else []) ++ toks), 2⟩

/-- Reconstruction of a Starknet `uint256` from its two-felt wire encoding
(`starknet_service.py` line 108): `balance_low + (balance_high << 128)`. -/
def starknet_combine_u256 (low high : Nat) : Nat :=
  low + (high <<< 128)

/-- Parsing of a successful `starknet_call` result (lines 102-116): an empty
result array yields `Decimal(0)`; otherwise the `[low, high]` pair (a missing
second word counts as 0) is combined and divided by `10 ** 18` in `Decimal`
arithmetic.  The felts are modelled as the naturals their hex strings denote. -/
def starknet_parse_result (res : List Nat) : ℚ :=
  if res.length = 0 then 0
  else
    let low := res.getD 0 0
    let high := if 1 < res.length then res.getD 1 0 else 0
    pyDecimalDivPow10 (starknet_combine_u256 low high) 18

/-- Model of `StarknetService.get_balance` (lines 60-123).  When no RPC URL is
configured it logs a warning and returns `Decimal(0)` without any network
request; when the request raises, both `except` arms catch the error and
return `Decimal(0)`. -/
def starknet_get_balance (rpcUrl : Option String) (rpc : Except NetErr (List Nat)) :
    NetResult ℚ :=
  match rpcUrl with
  | none => ⟨.ok 0, 0⟩
  | some _ =>
    match rpc with
    | .error _ => ⟨.ok 0, 1⟩
    | .ok res => ⟨.ok (starknet_parse_result res), 1⟩

/-- The fixed Starknet token allow-list (`starknet_service.py` lines 28-33). -/
def starknet_token_contracts : List (String × String) :=
  [("ETH", "0x049d36570d4e46f48e99674bd3fcc84644ddd6b96f7c741b1562b82f9e004dc7"),
   ("STRK", "0x04718f5a0fc34cc1af16a1cdee98ffb20c31f5cd61d6ab07201858f4287c938d"),
   ("USDC", "0x053c91253bc9682c04929ca02ed00b3e423f6710d2ee7e0d5ebb06f3ecf368a8"),
   ("USDT", "0x068f5c6a61780768455de69077e07e89787839bf8166decfbf92b645209c0fb8")]

/-- Model of `StarknetService.get_wallet_balances` (lines 125-153): with no
RPC URL it returns the empty mapping without network I/O; otherwise it queries
every allow-listed token (outcomes given per contract address by `rpc`) and
keeps the positive balances. -/
def starknet_get_wallet_balances (rpcUrl : Option String)
    (rpc : String → Except NetErr (List Nat)) : NetResult (List (String × ℚ)) :=
  match rpcUrl with
  | none => ⟨.ok [], 0⟩
  | some u =>
    let entries := starknet_token_contracts.filterMap (fun tc =>
      match (starknet_get_balance (some u) (rpc tc.2)).value with
      | .error _ => none
      | .ok q => if 0 < q then some (tc.1, q) else none)
    ⟨.ok entries, starknet_token_contracts.length⟩

/-- The native-token table of the Cosmos adapter (`cosmos_service.py` lines
29-33): symbol and decimals per supported chain. -/
def cosmos_native_tokens : String → Option (String × Nat)
  | "cosmos" => some ("ATOM", 6)
  | "celestia" => some ("TIA", 6)
  | _ => none

/-- The native-denomination table (`cosmos_service.py` lines 104-108). -/
def cosmos_native_denom : String → Option String
  | "cosmos" => some "uatom"
  | "celestia" => some "utia"
  | _ => none

/-- The response-decoding loop of `CosmosService.get_all_balances` (lines
96-133): entries are `(denom, amount)` pairs with the integer the amount
string denotes; an entry with an empty denom is skipped, the native denom is
renamed to its symbol and divided by its configured decimals, and every other
denom (IBC or otherwise) keeps its name and is divided by `10 ** 6`. -/
def cosmos_decode_balances (chain : String) (entries : List (String × Nat)) :
    List (String × ℚ) :=
  match cosmos_native_tokens chain with
  | none => []
  | some ti =>
    entries.filterMap (fun e =>
      if e.1 = "" then none
      else if some e.1 = cosmos_native_denom chain then
        some (ti.1, pyDecimalDivPow10 e.2 ti.2)
      else some (e.1, pyDecimalDivPow10 e.2 6))

/-- Model of `CosmosService.get_all_balances` (lines 68-143): when
`self.rpcs.get(chain)` is missing or empty it raises
`Unsupported Cosmos chain` BEFORE any network I/O; otherwise one REST request
whose decoded entries are converted by `cosmos_decode_balances`; raised
request errors are logged and re-raised. -/
def cosmos_get_all_balances (chain : String) (rpcUrl : Option String)
    (rpc : Except NetErr (List (String × Nat))) : NetResult (List (String × ℚ)) :=
  match rpcUrl with
  | none => ⟨.error (.notConfigured ("Unsupported Cosmos chain: " ++ chain)), 0⟩
  | some _ =>
    match rpc with
    | .error e => ⟨.error e, 1⟩
    | .ok entries => ⟨.ok (cosmos_decode_balances chain entries), 1⟩

/-- Model of `CosmosService.get_wallet_balances` (lines 145-163): it delegates
to `get_all_balances` and re-raises any error. -/
def cosmos_get_wallet_balances (chain : String) (rpcUrl : Option String)
    (rpc : Except NetErr (List (String × Nat))) : NetResult (List (String × ℚ)) :=
  cosmos_get_all_balances chain rpcUrl rpc

/-! ## Retry policy

`ethereum_service.py`, `solana_service.py`, `starknet_service.py` and
`price_service.py` all decorate their network methods with tenacity's
`@retry(stop=stop_after_attempt(3), wait=wait_exponential(multiplier=1, min=2, max=10))`.
With no `retry=` argument, tenacity retries on ANY raised exception; after the
third failed attempt the last exception is surfaced (wrapped in a
`RetryError`, modelled as the error itself). -/

/-- Seconds waited after the `n`-th failed attempt under
`wait_exponential(multiplier=1, min=2, max=10)`: the exponential term is
`2 ^ n` at attempt number `n`, clamped to `[2, 10]`. -/
def tenacity_wait (n : Nat) : Nat :=
  min 10 (max 2 (2 ^ n))

/-- Model of the tenacity-decorated call with `stop_after_attempt(3)`:
`attempts i` is the outcome of the `i`-th invocation of the wrapped function
(any error triggers a retry). -/
def tenacity_retry3 {ε α : Type} (attempts : Nat → Except ε α) : Except ε α :=
  match attempts 1 with
  | .ok a => .ok a
  | .error _ =>
    match attempts 2 with
    | .ok a => .ok a
    | .error _ => attempts 3

/-- How many invocations the tenacity-decorated call performs. -/
def tenacity_attempts_used {ε α : Type} (attempts : Nat → Except ε α) : Nat :=
  match attempts 1 with
  | .ok _ => 1
  | .error _ =>
    match attempts 2 with
    | .ok _ => 2
    | .error _ => 3

/-! ## Wallet service (`wallet_service.py`)

The Python service operates on a SQLAlchemy session; we model the committed
database state explicitly.  Pending inserts/updates only become visible at
`db.commit()`, and `db.rollback()` discards them, so a run that ends in
`rollback` simply leaves the committed state unchanged. -/

/-- Errors raised by `create_wallet` (`wallet_service.py` lines 36-56). -/
inductive CreateErr
  | invalidAddress (chain : String)
  | unsupportedChain (chain : String)
  | alreadyExists (address chain : String)
  deriving DecidableEq, Repr

/-- Model of `WalletService.create_wallet` (lines 21-56): validate the address
for the chain (normalising Ethereum addresses to their EIP-55 checksum form),
then insert and commit; the unique constraint on `(address, chain)`
(`models.py` lines 66-68) makes the commit raise `IntegrityError` when a row
with the same pair exists, in which case the service rolls back and raises.
`newId` stands for the generated UUID primary key. -/
def create_wallet (db : DBState) (newId : WalletId) (address chain : String)
    (label : Option String) : DBState × Except CreateErr WalletRow :=
  let normalized :=
    if chain = "ethereum" then
      if ethereum_is_valid_address address then Except.ok (checksum_address address)
      else Except.error (CreateErr.invalidAddress chain)
    else if chain = "solana" then
      if solana_is_valid_address address then Except.ok address
      else Except.error (CreateErr.invalidAddress chain)
    else Except.error (CreateErr.unsupportedChain chain)
  match normalized with
  | .error e => (db, .error e)
  | .ok addr =>
    if db.wallets.any (fun w => w.address == addr && w.chain == chain) then
      (db, .error (.alreadyExists addr chain))
    else
      let w : WalletRow := ⟨newId, addr, chain, label⟩
      ({ db with wallets := db.wallets ++ [w] }, .ok w)

/-- The `Balance` upsert key used at `wallet_service.py` lines 157-161:
`wallet_id`, `token_symbol`, and `token_address IS NULL`. -/
def balanceKeyMatches (wid : WalletId) (sym : String) (b : BalanceRow) : Bool :=
  b.wallet_id == wid && b.token_symbol == sym && b.token_address == none

/-- Replace the first element satisfying `p` by its image under `f` (the
SQLAlchemy `.first()` row is mutated in place). -/
def updateFirst {α : Type} (p : α → Bool) (f : α → α) : List α → List α
  | [] => []
  | a :: as => if p a then f a :: as else a :: updateFirst p f as

/-- The USD value computed at `wallet_service.py` lines 151-154:
`None` unless the oracle returned a truthy (non-`None`, nonzero) price, in
which case it is `balance * usd_price`. -/
def compute_usd_value (amount : ℚ) : Option ℚ → Option ℚ
  | none => none
  | some p => if p = 0 then none else some (amount * p)

/-- The update-or-create step for one token (`wallet_service.py` lines
156-178): the first row matching the key is updated in place, otherwise a new
row with `token_address = NULL` is appended.  Returns the new row list and the
row object collected into `stored_balances`. -/
def upsert_balance (bs : List BalanceRow) (wid : WalletId) (sym : String) (amount : ℚ)
    (usd : Option ℚ) (now : Nat) : List BalanceRow × BalanceRow :=
  match bs.find? (balanceKeyMatches wid sym) with
  | some b =>
    let b' : BalanceRow := { b with balance := amount, usd_value := usd, last_updated := now }
    (updateFirst (balanceKeyMatches wid sym)
      (fun old => { old with balance := amount, usd_value := usd, last_updated := now }) bs, b')
  | none =>
    let b' : BalanceRow := ⟨wid, sym, none, amount, usd, now⟩
    (bs ++ [b'], b')

/-- The history row appended unconditionally for each token
(`wallet_service.py` lines 180-188). -/
def history_row (wid : WalletId) (sym : String) (amount : ℚ) (usd : Option ℚ)
    (now : Nat) : HistoryRow :=
  ⟨wid, sym, none, amount, usd, now⟩

/-- The storage loop of `fetch_and_store_balances` (lines 147-188): for each
`(token_symbol, balance)` pair from the adapter, price it, upsert the current
`Balance` row and append a `BalanceHistory` row; returns the resulting state
and the `stored_balances` list.  `price sym` is what
`coingecko_price_service.get_price(token_symbol)` returned (an `Option`, since
`get_price` never raises). -/
def store_balances (wid : WalletId) (price : String → Option ℚ) (now : Nat) :
    List (String × ℚ) → DBState → DBState × List BalanceRow
  | [], db => (db, [])
  | (sym, amount) :: rest, db =>
    let usd := compute_usd_value amount (price sym)
    let up := upsert_balance db.balances wid sym amount usd now
    let db1 : DBState :=
      { db with balances := up.1, history := db.history ++ [history_row wid sym amount usd now] }
    let r := store_balances wid price now rest db1
    (r.1, up.2 :: r.2)

/-- The cache key used by `fetch_and_store_balances` (line 131):
`wallet:{wallet_id}:balances`. -/
def balances_cache_key (wid : WalletId) : String :=
  "wallet:" ++ toString wid ++ ":balances"

/-- Errors surfaced by `fetch_and_store_balances`. -/
inductive FetchErr
  | walletNotFound (wid : WalletId)
  | unsupportedChain (chain : String)
  | adapter (e : NetErr)
  | persistence
  deriving DecidableEq, Repr

/-- Outcome of one `fetch_and_store_balances` request: the committed database
and cache states afterwards, the number of adapter (whole-wallet) calls
issued, and the returned value or raised error. -/
structure FetchResult where
  db : DBState
  cache : CacheState
  adapterCalls : Nat
  result : Except FetchErr (List BalanceRow)
  deriving DecidableEq, Repr

/-- Model of `WalletService.fetch_and_store_balances` (lines 109-200).

Control flow mirrors the source: look up the wallet (line 126, `ValueError`
when absent); unless `force_refresh`, consult the cache key and on a truthy
hit return the persisted `Balance` rows with no adapter call (lines 130-136);
otherwise dispatch on the chain (lines 140-145) and call the adapter, whose
outcome is the `adapter` parameter; store every returned token (lines
147-188); commit (line 190, success given by `commitOk`) and only then mark
the cache key fresh (line 193).  Any raised error is met by `db.rollback()`
and re-raised (lines 197-200), leaving the committed state and the cache
untouched. -/
def fetch_and_store_balances (db : DBState) (cache : CacheState) (wid : WalletId)
    (force_refresh : Bool) (adapter : Except NetErr (List (String × ℚ)))
    (price : String → Option ℚ) (commitOk : Bool) (now : Nat) : FetchResult :=
  match db.wallets.find? (fun w => w.id == wid) with
  | none => ⟨db, cache, 0, .error (.walletNotFound wid)⟩
  | some w =>
    let key := balances_cache_key wid
    if !force_refresh && (cache_get cache key).getD false then
      ⟨db, cache, 0, .ok (db.balances.filter (fun b => b.wallet_id == wid))⟩
    else if w.chain == "ethereum" || w.chain == "solana" then
      match adapter with
      | .error e => ⟨db, cache, 1, .error (.adapter e)⟩
      | .ok tokens =>
        let r := store_balances wid price now tokens db
        if commitOk then ⟨r.1, cache_set cache key true, 1, .ok r.2⟩
        else ⟨db, cache, 1, .error .persistence⟩
    else ⟨db, cache, 0, .error (.unsupportedChain w.chain)⟩

/-! ## Portfolio aggregator (`wallet_service.py` lines 216-252) -/

/-- The `Balance` rows persisted for one wallet (`get_wallet_balances`,
lines 202-214). -/
def get_wallet_balances (db : DBState) (wid : WalletId) : List BalanceRow :=
  db.balances.filter (fun b => b.wallet_id == wid)

/-- One wallet's summed USD value (lines 233-236): the sum of `usd_value`
over its `Balance` rows, a `None` value counting as 0. -/
def wallet_subtotal (db : DBState) (wid : WalletId) : ℚ :=
  ((get_wallet_balances db wid).map (fun b => b.usd_value.getD 0)).foldl (· + ·) 0

/-- The summary returned by `get_portfolio_summary`; the stringification of
the decimal fields in the Python dict is elided. -/
structure PortfolioSummary where
  total_wallets : Nat
  total_usd_value : ℚ
  wallets : List (WalletId × List BalanceRow × ℚ)
  deriving DecidableEq, Repr

/-- Model of `WalletService.get_portfolio_summary` (lines 216-252): a pure
read that folds every wallet's summed `usd_value` into the grand total and
performs no writes and no adapter calls (it takes only the database state and
returns only a summary). -/
def get_portfolio_summary (db : DBState) : PortfolioSummary :=
  { total_wallets := db.wallets.length
    total_usd_value := (db.wallets.map (fun w => wallet_subtotal db w.id)).foldl (· + ·) 0
    wallets := db.wallets.map (fun w =>
      (w.id, get_wallet_balances db w.id, wallet_subtotal db w.id)) }

/-! ## Helper lemmas about the upsert machinery -/

theorem balanceKeyMatches_iff {wid : WalletId} {s : String} {b : BalanceRow} :
    balanceKeyMatches wid s b = true ↔
      b.wallet_id = wid ∧ b.token_symbol = s ∧ b.token_address = none := by
  simp [balanceKeyMatches, Bool.and_assoc]

theorem balanceKeyMatches_update (wid' : WalletId) (s' : String) (b : BalanceRow)
    (amount : ℚ) (usd : Option ℚ) (now : Nat) :
    balanceKeyMatches wid' s'
        { b with balance := amount, usd_value := usd, last_updated := now }
      = balanceKeyMatches wid' s' b := rfl

theorem balanceKeyMatches_ne_symbol {wid wid' : WalletId} {s s' : String} {b : BalanceRow}
    (hb : balanceKeyMatches wid s b = true) (hs : s' ≠ s) :
    balanceKeyMatches wid' s' b = false := by
  rcases balanceKeyMatches_iff.1 hb with ⟨-, h2, -⟩
  cases hbk : balanceKeyMatches wid' s' b with
  | false => rfl
  | true =>
    rcases balanceKeyMatches_iff.1 hbk with ⟨-, h2', -⟩
    exact absurd (h2'.symm.trans h2) hs

theorem updateFirst_length {α : Type} (p : α → Bool) (f : α → α) (l : List α) :
    (updateFirst p f l).length = l.length := by
  induction l with
  | nil => rfl
  | cons a t ih =>
    by_cases h : p a = true <;> simp [updateFirst, h, ih]

theorem updateFirst_countP {α : Type} (p q : α → Bool) (f : α → α)
    (hf : ∀ a, q (f a) = q a) (l : List α) :
    (updateFirst p f l).countP q = l.countP q := by
  induction l with
  | nil => rfl
  | cons a t ih =>
    by_cases h : p a = true <;>
      simp [updateFirst, h, List.countP_cons, ih, hf]

theorem updateFirst_any {α : Type} (p q : α → Bool) (f : α → α)
    (hf : ∀ a, q (f a) = q a) (l : List α) :
    (updateFirst p f l).any q = l.any q := by
  induction l with
  | nil => rfl
  | cons a t ih =>
    by_cases h : p a = true <;> simp [updateFirst, h, ih, hf]

theorem mem_updateFirst {α : Type} (p : α → Bool) (f : α → α) {b : α} {l : List α}
    (hb : b ∈ l) (hpb : p b = false) : b ∈ updateFirst p f l := by
  induction l with
  | nil => cases hb
  | cons a t ih =>
    rcases List.mem_cons.1 hb with rfl | hmem
    · have : p b ≠ true := by simp [hpb]
      simp [updateFirst, this]
    · by_cases h : p a = true <;> simp [updateFirst, h]
      · right; exact hmem
      · right; exact ih hmem

theorem find?_updateFirst_mem {α : Type} (p : α → Bool) (f : α → α) {b : α} {l : List α}
    (h : l.find? p = some b) : f b ∈ updateFirst p f l := by
  induction l with
  | nil => cases h
  | cons a t ih =>
    by_cases hpa : p a = true
    · rw [List.find?_cons_of_pos _ hpa] at h
      cases h
      simp [updateFirst, hpa]
    · rw [List.find?_cons_of_neg _ hpa] at h
      simp [updateFirst, hpa]
      right
      exact ih h

theorem upsert_countP_self (bs : List BalanceRow) (wid : WalletId) (sym : String)
    (amount : ℚ) (usd : Option ℚ) (now : Nat)
    (hinv : bs.countP (balanceKeyMatches wid sym) ≤ 1) :
    ((upsert_balance bs wid sym amount usd now).1).countP (balanceKeyMatches wid sym) = 1 := by
  unfold upsert_balance
  cases h : bs.find? (balanceKeyMatches wid sym) with
  | some b =>
    simp only
    rw [updateFirst_countP _ _ _ (fun a => balanceKeyMatches_update wid sym a amount usd now)]
    have hpos : 0 < bs.countP (balanceKeyMatches wid sym) :=
      List.countP_pos_iff.2 ⟨b, List.mem_of_find?_eq_some h, List.find?_some h⟩
    omega
  | none =>
    simp only
    rw [List.countP_append]
    have hz : bs.countP (balanceKeyMatches wid sym) = 0 := by
      rw [List.countP_eq_zero]
      intro a ha
      exact List.find?_eq_none.1 h a ha
    rw [hz]
    simp [List.countP_cons, balanceKeyMatches]

theorem upsert_countP_ne (bs : List BalanceRow) (wid wid' : WalletId) (sym sym' : String)
    (amount : ℚ) (usd : Option ℚ) (now : Nat) (hs : sym' ≠ sym) :
    ((upsert_balance bs wid sym amount usd now).1).countP (balanceKeyMatches wid' sym')
      = bs.countP (balanceKeyMatches wid' sym') := by
  unfold upsert_balance
  cases h : bs.find? (balanceKeyMatches wid sym) with
  | some b =>
    simp only
    exact updateFirst_countP _ _ _
      (fun a => balanceKeyMatches_update wid' sym' a amount usd now) bs
  | none =>
    simp only
    rw [List.countP_append]
    have : balanceKeyMatches wid' sym' ⟨wid, sym, none, amount, usd, now⟩ = false := by
      simp [balanceKeyMatches]
      intro _
      exact fun hq => absurd hq.symm hs
    simp [List.countP_cons, this]

theorem upsert_any_ne (bs : List BalanceRow) (wid wid' : WalletId) (sym sym' : String)
    (amount : ℚ) (usd : Option ℚ) (now : Nat) (hs : sym' ≠ sym) :
    ((upsert_balance bs wid sym amount usd now).1).any (balanceKeyMatches wid' sym')
      = bs.any (balanceKeyMatches wid' sym') := by
  unfold upsert_balance
  cases h : bs.find? (balanceKeyMatches wid sym) with
  | some b =>
    simp only
    exact updateFirst_any _ _ _
      (fun a => balanceKeyMatches_update wid' sym' a amount usd now) bs
  | none =>
    simp only
    have : balanceKeyMatches wid' sym' ⟨wid, sym, none, amount, usd, now⟩ = false := by
      simp [balanceKeyMatches]
      intro _
      exact fun hq => absurd hq.symm hs
    simp [List.any_append, this]

theorem upsert_length (bs : List BalanceRow) (wid : WalletId) (sym : String)
    (amount : ℚ) (usd : Option ℚ) (now : Nat) :
    ((upsert_balance bs wid sym amount usd now).1).length
      = bs.length + (if bs.any (balanceKeyMatches wid sym) then 0 else 1) := by
  unfold upsert_balance
  cases h : bs.find? (balanceKeyMatches wid sym) with
  | some b =>
    have : bs.any (balanceKeyMatches wid sym) = true :=
      List.any_eq_true.2 ⟨b, List.mem_of_find?_eq_some h, List.find?_some h⟩
    simp [updateFirst_length, this]
  | none =>
    have : bs.any (balanceKeyMatches wid sym) = false := by
      rw [List.any_eq_false]
      intro a ha
      exact List.find?_eq_none.1 h a ha
    simp [this]

theorem upsert_mem_preserved (bs : List BalanceRow) (wid : WalletId) (sym : String)
    (amount : ℚ) (usd : Option ℚ) (now : Nat) {b : BalanceRow} (hb : b ∈ bs)
    (hkey : balanceKeyMatches wid sym b = false) :
    b ∈ (upsert_balance bs wid sym amount usd now).1 := by
  unfold upsert_balance
  cases h : bs.find? (balanceKeyMatches wid sym) with
  | some c =>
    simp only
    exact mem_updateFirst _ _ hb hkey
  | none =>
    simp only
    exact List.mem_append_left _ hb

theorem upsert_snd_mem (bs : List BalanceRow) (wid : WalletId) (sym : String)
    (amount : ℚ) (usd : Option ℚ) (now : Nat) :
    (upsert_balance bs wid sym amount usd now).2 ∈ (upsert_balance bs wid sym amount usd now).1 := by
  unfold upsert_balance
  cases h : bs.find? (balanceKeyMatches wid sym) with
  | some b =>
    simp only
    exact find?_updateFirst_mem _ _ h
  | none =>
    simp only
    exact List.mem_append_right _ (List.mem_singleton.2 rfl)

theorem upsert_snd_fields (bs : List BalanceRow) (wid : WalletId) (sym : String)
    (amount : ℚ) (usd : Option ℚ) (now : Nat) :
    (upsert_balance bs wid sym amount usd now).2.balance = amount
    ∧ (upsert_balance bs wid sym amount usd now).2.usd_value = usd
    ∧ (upsert_balance bs wid sym amount usd now).2.last_updated = now
    ∧ balanceKeyMatches wid sym (upsert_balance bs wid sym amount usd now).2 = true := by
  unfold upsert_balance
  cases h : bs.find? (balanceKeyMatches wid sym) with
  | some b =>
    have hkey := List.find?_some h
    refine ⟨rfl, rfl, rfl, ?_⟩
    rw [balanceKeyMatches_update]
    exact hkey
  | none =>
    exact ⟨rfl, rfl, rfl, by simp [balanceKeyMatches]⟩

theorem store_balances_spec (wid : WalletId) (price : String → Option ℚ) (now : Nat) :
    ∀ (tokens : List (String × ℚ)) (db : DBState),
      (tokens.map Prod.fst).Nodup →
      (∀ s, db.balances.countP (balanceKeyMatches wid s) ≤ 1) →
      (store_balances wid price now tokens db).1.wallets = db.wallets
      ∧ (store_balances wid price now tokens db).1.history
          = db.history ++ tokens.map (fun tb =>
              history_row wid tb.1 tb.2 (compute_usd_value tb.2 (price tb.1)) now)
      ∧ (∀ s, (store_balances wid price now tokens db).1.balances.countP
            (balanceKeyMatches wid s) ≤ 1)
      ∧ (∀ s, s ∉ tokens.map Prod.fst →
            (store_balances wid price now tokens db).1.balances.countP (balanceKeyMatches wid s)
              = db.balances.countP (balanceKeyMatches wid s)
            ∧ (store_balances wid price now tokens db).1.balances.any (balanceKeyMatches wid s)
              = db.balances.any (balanceKeyMatches wid s))
      ∧ (∀ b, b ∈ db.balances → (∀ tb, tb ∈ tokens → balanceKeyMatches wid tb.1 b = false) →
            b ∈ (store_balances wid price now tokens db).1.balances)
      ∧ (∀ tb, tb ∈ tokens →
            (store_balances wid price now tokens db).1.balances.countP
              (balanceKeyMatches wid tb.1) = 1
            ∧ ∃ b, b ∈ (store_balances wid price now tokens db).1.balances
                ∧ balanceKeyMatches wid tb.1 b = true ∧ b.balance = tb.2
                ∧ b.usd_value = compute_usd_value tb.2 (price tb.1)
                ∧ b.last_updated = now)
      ∧ (store_balances wid price now tokens db).1.balances.length
          = db.balances.length
            + (tokens.filter (fun tb => !(db.balances.any (balanceKeyMatches wid tb.1)))).length := by
  intro tokens
  induction tokens with
  | nil =>
    intro db hnd hinv
    refine ⟨rfl, by simp [store_balances], hinv, fun s _ => ⟨rfl, rfl⟩,
      fun b hb _ => hb, fun tb htb => absurd htb (List.not_mem_nil tb),
      by simp [store_balances]⟩
  | cons head rest ih =>
    intro db hnd hinv
    obtain ⟨sym, amount⟩ := head
    rw [List.map_cons, List.nodup_cons] at hnd
    obtain ⟨hsym, hnd'⟩ := hnd
    simp only [store_balances]
    set usd := compute_usd_value amount (price sym) with husd
    set db1 : DBState :=
      { db with
        balances := (upsert_balance db.balances wid sym amount usd now).1,
        history := db.history ++ [history_row wid sym amount usd now] } with hdb1
    have hb1 : db1.balances = (upsert_balance db.balances wid sym amount usd now).1 := rfl
    have hinv1 : ∀ s, db1.balances.countP (balanceKeyMatches wid s) ≤ 1 := by
      intro s
      rw [hb1]
      by_cases hcase : s = sym
      · subst hcase
        rw [upsert_countP_self db.balances wid s amount usd now (hinv s)]
      · rw [upsert_countP_ne db.balances wid wid sym s amount usd now hcase]
        exact hinv s
    obtain ⟨ihw, ihh, ihinv, ihpres, ihmem, ihtok, ihlen⟩ := ih db1 hnd' hinv1
    refine ⟨?_, ?_, ihinv, ?_, ?_, ?_, ?_⟩
    · rw [ihw]
    · rw [ihh]
      show (db.history ++ [history_row wid sym amount usd now]) ++ _ = _
      simp [List.append_assoc]
    · intro s hs
      rw [List.map_cons, List.mem_cons, not_or] at hs
      obtain ⟨hne, hnotin⟩ := hs
      obtain ⟨hc, ha⟩ := ihpres s hnotin
      refine ⟨?_, ?_⟩
      · rw [hc, hb1, upsert_countP_ne db.balances wid wid sym s amount usd now hne]
      · rw [ha, hb1, upsert_any_ne db.balances wid wid sym s amount usd now hne]
    · intro b hb hkeys
      have hkey_sym : balanceKeyMatches wid sym b = false :=
        hkeys (sym, amount) (List.mem_cons_self _ _)
      have hmem1 : b ∈ db1.balances := by
        rw [hb1]
        exact upsert_mem_preserved db.balances wid sym amount usd now hb hkey_sym
      exact ihmem b hmem1 (fun tb htb => hkeys tb (List.mem_cons_of_mem _ htb))
    · intro tb htb
      rcases List.mem_cons.1 htb with rfl | htb'
      · obtain ⟨hf1, hf2, hf3, hf4⟩ := upsert_snd_fields db.balances wid sym amount usd now
        constructor
        · obtain ⟨hc, -⟩ := ihpres sym hsym
          rw [hc, hb1]
          exact upsert_countP_self db.balances wid sym amount usd now (hinv sym)
        · refine ⟨(upsert_balance db.balances wid sym amount usd now).2, ?_, hf4, hf1, hf2, hf3⟩
          have hmem1 : (upsert_balance db.balances wid sym amount usd now).2 ∈ db1.balances := by
            rw [hb1]
            exact upsert_snd_mem db.balances wid sym amount usd now
          refine ihmem _ hmem1 ?_
          intro tb' htb'
          refine balanceKeyMatches_ne_symbol hf4 ?_
          intro heq
          have hin : tb'.1 ∈ rest.map Prod.fst := List.mem_map_of_mem Prod.fst htb'
          exact hsym (heq ▸ hin)
      · exact ihtok tb htb'
    · rw [ihlen, hb1, upsert_length db.balances wid sym amount usd now]
      have hfeq : rest.filter (fun tb => !(db1.balances.any (balanceKeyMatches wid tb.1)))
          = rest.filter (fun tb => !(db.balances.any (balanceKeyMatches wid tb.1))) := by
        apply List.filter_congr
        intro tb htb
        have hne : tb.1 ≠ sym := by
          intro h
          have hin : tb.1 ∈ rest.map Prod.fst := List.mem_map_of_mem Prod.fst htb
          exact hsym (h ▸ hin)
        rw [hb1, upsert_any_ne db.balances wid wid sym tb.1 amount usd now hne]
      rw [hfeq]
      by_cases hany : db.balances.any (balanceKeyMatches wid sym) = true
      · simp [List.filter_cons, hany]
      · rw [Bool.not_eq_true] at hany
        simp [List.filter_cons, hany]
        omega

/-! ## Helper lemmas for the portfolio aggregator and the wallet invariant -/

theorem foldl_add_eq_sum (a : ℚ) : ∀ l : List ℚ, l.foldl (· + ·) a = a + l.sum := by
  intro l
  induction l generalizing a with
  | nil => simp
  | cons x t ihl =>
    rw [List.foldl_cons, ihl (a + x), List.sum_cons]
    ring

theorem filter_wallet_through_ne (l : List BalanceRow) {wid w' : WalletId} (hne : w' ≠ wid) :
    l.filter (fun b => b.wallet_id == w')
      = (l.filter (fun b => !(b.wallet_id == wid))).filter (fun b => b.wallet_id == w') := by
  induction l with
  | nil => rfl
  | cons b t ihl =>
    by_cases h2 : b.wallet_id = wid
    · have hbwid : (b.wallet_id == wid) = true := by simp [h2]
      have hbw' : (b.wallet_id == w') = false := by
        rw [beq_eq_false_iff_ne]
        intro h
        exact hne (h.symm.trans h2)
      simp [List.filter_cons, hbw', hbwid, ihl]
    · have hbwid : (b.wallet_id == wid) = false := by simp [h2]
      by_cases h1 : b.wallet_id = w'
      · have hbw' : (b.wallet_id == w') = true := by simp [h1]
        simp [List.filter_cons, hbw', hbwid, ihl]
      · have hbw' : (b.wallet_id == w') = false := by simp [h1]
        simp [List.filter_cons, hbw', hbwid, ihl]

theorem sum_map_diff (wid : WalletId) (d : ℚ) (f g : WalletRow → ℚ)
    (hfg : ∀ w : WalletRow, w.id ≠ wid → f w = g w)
    (hfid : ∀ w : WalletRow, w.id = wid → f w - g w = d) :
    ∀ ws : List WalletRow,
      (ws.map f).sum - (ws.map g).sum
        = ((ws.filter (fun w => w.id == wid)).length : ℚ) * d := by
  intro ws
  induction ws with
  | nil => simp
  | cons w t ihl =>
    by_cases h : w.id = wid
    · have hd := hfid w h
      have hb : (w.id == wid) = true := by simp [h]
      simp only [List.map_cons, List.sum_cons, List.filter_cons, hb]
      simp only [if_pos, List.length_cons]
      push_cast
      linarith [ihl]
    · have he := hfg w h
      have hb : (w.id == wid) = false := by simp [h]
      simp only [List.map_cons, List.sum_cons, List.filter_cons, hb]
      simp only [Bool.false_eq_true, if_false, he]
      linarith [ihl]

/-- The global uniqueness invariant of `(address, chain)` pairs
(`models.py` lines 66-68). -/
def wallet_pair_unique (db : DBState) : Prop :=
  ∀ a c : String, db.wallets.countP (fun w => w.address == a && w.chain == c) ≤ 1

theorem wallet_pair_unique_append (l : List WalletRow) (w : WalletRow)
    (hu : ∀ a c : String, l.countP (fun x => x.address == a && x.chain == c) ≤ 1)
    (hany : l.any (fun x => x.address == w.address && x.chain == w.chain) = false) :
    ∀ a c : String, (l ++ [w]).countP (fun x => x.address == a && x.chain == c) ≤ 1 := by
  intro a c
  rw [List.countP_append]
  by_cases hqw : (w.address == a && w.chain == c) = true
  · obtain ⟨ha, hc⟩ : w.address = a ∧ w.chain = c := by simpa using hqw
    subst ha
    subst hc
    have hz : l.countP (fun x => x.address == w.address && x.chain == w.chain) = 0 := by
      rw [List.countP_eq_zero]
      intro x hx
      have := List.any_eq_false.1 hany x hx
      simpa using this
    rw [hz]
    simp [List.countP_cons, hqw]
  · have h1 := hu a c
    have h0 : List.countP (fun x => x.address == a && x.chain == c) [w] = 0 := by
      simp [List.countP_cons, hqw]
    omega

/-! ## Claim theorems -/

/-- C3: for every wallet and cache state, `fetch_and_store_balances` with
`force_refresh = true` always calls the chain adapter regardless of cache
freshness; with `force_refresh = false`, a truthy cache hit on
`wallet:{id}:balances` returns the persisted `Balance` rows of the wallet with
zero adapter calls and no database or cache writes, while a cache miss
proceeds to the chain adapter. -/
theorem c3_cache_gating (db : DBState) (cache : CacheState) (wid : WalletId)
    (adapter : Except NetErr (List (String × ℚ))) (price : String → Option ℚ)
    (commitOk : Bool) (now : Nat) (w : WalletRow)
    (hw : db.wallets.find? (fun x => x.id == wid) = some w)
    (hchain : w.chain = "ethereum" ∨ w.chain = "solana") :
    (fetch_and_store_balances db cache wid true adapter price commitOk now).adapterCalls = 1
    ∧ (cache_get cache (balances_cache_key wid) = some true →
        fetch_and_store_balances db cache wid false adapter price commitOk now
          = ⟨db, cache, 0, Except.ok (db.balances.filter (fun b => b.wallet_id == wid))⟩)
    ∧ ((cache_get cache (balances_cache_key wid)).getD false = false →
        (fetch_and_store_balances db cache wid false adapter price commitOk now).adapterCalls
          = 1) := by
  have hc : (w.chain == "ethereum" || w.chain == "solana") = true := by
    rcases hchain with h | h <;> simp [h]
  refine ⟨?_, ?_, ?_⟩
  · simp only [fetch_and_store_balances, hw, hc, Bool.not_true, Bool.false_and,
      Bool.and_false, if_false, if_true]
    cases adapter <;> cases commitOk <;> simp
  · intro hhit
    simp [fetch_and_store_balances, hw, cache_get] at hhit ⊢
    simp [hhit]
  · intro hmiss
    simp only [fetch_and_store_balances, hw, hc, Bool.not_false, Bool.true_and, hmiss, if_false]
    cases adapter <;> cases commitOk <;> simp

/-- Witness for C3 at a concrete state: one registered Ethereum wallet; with a
fresh cache flag the second call does no adapter work and returns the stored
row, and `force_refresh = true` bypasses the flag. -/
theorem c3_cache_gating_witness :
    (fetch_and_store_balances ⟨[⟨7, "0xabc", "ethereum", none⟩], [], []⟩
        [("wallet:7:balances", true)] 7 true (Except.error NetErr.timeout)
        (fun _ => none) true 5).adapterCalls = 1
    ∧ fetch_and_store_balances ⟨[⟨7, "0xabc", "ethereum", none⟩], [], []⟩
        [("wallet:7:balances", true)] 7 false (Except.error NetErr.timeout)
        (fun _ => none) true 5
        = ⟨⟨[⟨7, "0xabc", "ethereum", none⟩], [], []⟩, [("wallet:7:balances", true)], 0,
            Except.ok []⟩ := by
  have h := c3_cache_gating ⟨[⟨7, "0xabc", "ethereum", none⟩], [], []⟩
    [("wallet:7:balances", true)] 7 (Except.error NetErr.timeout)
    (fun _ => none) true 5 ⟨7, "0xabc", "ethereum", none⟩ (by decide) (Or.inl rfl)
  exact ⟨h.1, h.2.1 rfl⟩

/-- C1: whenever the fetch path of `fetch_and_store_balances` is reached and
either the chain adapter raises or the commit fails, the transaction is rolled
back (the committed rows, including every previously stored row of the wallet,
are exactly as before), the error is surfaced to the caller (an adapter error
as such, a commit failure as a persistence error), and the cache key is
neither set nor deleted. -/
theorem c1_error_rollback (db : DBState) (cache : CacheState) (wid : WalletId)
    (force_refresh : Bool) (adapter : Except NetErr (List (String × ℚ)))
    (price : String → Option ℚ) (commitOk : Bool) (now : Nat) (w : WalletRow)
    (hw : db.wallets.find? (fun x => x.id == wid) = some w)
    (hchain : w.chain = "ethereum" ∨ w.chain = "solana")
    (hgo : force_refresh = true
      ∨ (cache_get cache (balances_cache_key wid)).getD false = false)
    (herr : (∃ e, adapter = Except.error e) ∨ commitOk = false) :
    (fetch_and_store_balances db cache wid force_refresh adapter price commitOk now).db = db
    ∧ (fetch_and_store_balances db cache wid force_refresh adapter price commitOk now).cache
        = cache
    ∧ (∀ e, adapter = Except.error e →
        (fetch_and_store_balances db cache wid force_refresh adapter price commitOk now).result
          = Except.error (FetchErr.adapter e))
    ∧ (∀ tokens, adapter = Except.ok tokens → commitOk = false →
        (fetch_and_store_balances db cache wid force_refresh adapter price commitOk now).result
          = Except.error FetchErr.persistence) := by
  have hc : (w.chain == "ethereum" || w.chain == "solana") = true := by
    rcases hchain with h | h <;> simp [h]
  have hcond : (!force_refresh && (cache_get cache (balances_cache_key wid)).getD false)
      = false := by
    rcases hgo with h | h <;> simp [h]
  simp only [fetch_and_store_balances, hw, hcond, hc, Bool.false_eq_true, if_false, if_true]
  rcases herr with ⟨e, rfl⟩ | rfl
  · refine ⟨rfl, rfl, ?_, ?_⟩
    · intro e' he'
      cases he'
      rfl
    · intro tokens ht
      cases ht
  · cases adapter with
    | error e =>
      refine ⟨rfl, rfl, ?_, ?_⟩
      · intro e' he'
        cases he'
        rfl
      · intro tokens ht
        cases ht
    | ok tokens =>
      simp

/-- Witness for C1 at a concrete state: a wallet with one stored balance row;
an adapter timeout and, separately, a failed commit each leave the database
and cache exactly as they were and surface the error. -/
theorem c1_error_rollback_witness :
    (fetch_and_store_balances
        ⟨[⟨7, "0xabc", "ethereum", none⟩], [⟨7, "ETH", none, 2, some 100, 5⟩], []⟩
        [] 7 false (Except.error NetErr.timeout) (fun _ => none) true 9).db
      = ⟨[⟨7, "0xabc", "ethereum", none⟩], [⟨7, "ETH", none, 2, some 100, 5⟩], []⟩
    ∧ (fetch_and_store_balances
        ⟨[⟨7, "0xabc", "ethereum", none⟩], [⟨7, "ETH", none, 2, some 100, 5⟩], []⟩
        [] 7 false (Except.error NetErr.timeout) (fun _ => none) true 9).cache = []
    ∧ (fetch_and_store_balances
        ⟨[⟨7, "0xabc", "ethereum", none⟩], [⟨7, "ETH", none, 2, some 100, 5⟩], []⟩
        [] 7 false (Except.error NetErr.timeout) (fun _ => none) true 9).result
      = Except.error (FetchErr.adapter NetErr.timeout)
    ∧ (fetch_and_store_balances
        ⟨[⟨7, "0xabc", "ethereum", none⟩], [⟨7, "ETH", none, 2, some 100, 5⟩], []⟩
        [] 7 false (Except.ok [("ETH", 1)]) (fun _ => none) false 9).result
      = Except.error FetchErr.persistence := by
  have h1 := c1_error_rollback
    ⟨[⟨7, "0xabc", "ethereum", none⟩], [⟨7, "ETH", none, 2, some 100, 5⟩], []⟩
    [] 7 false (Except.error NetErr.timeout) (fun _ => none) true 9
    ⟨7, "0xabc", "ethereum", none⟩ (by decide) (Or.inl rfl) (Or.inr rfl)
    (Or.inl ⟨NetErr.timeout, rfl⟩)
  have h2 := c1_error_rollback
    ⟨[⟨7, "0xabc", "ethereum", none⟩], [⟨7, "ETH", none, 2, some 100, 5⟩], []⟩
    [] 7 false (Except.ok [("ETH", 1)]) (fun _ => none) false 9
    ⟨7, "0xabc", "ethereum", none⟩ (by decide) (Or.inl rfl) (Or.inr rfl) (Or.inr rfl)
  exact ⟨h1.1, h1.2.1, h1.2.2.1 NetErr.timeout rfl, h2.2.2.2 [("ETH", 1)] rfl rfl⟩

/-- On the fetch path (wallet found, supported chain, no fresh cache hit or a
forced refresh) with a successful adapter call and a successful commit,
`fetch_and_store_balances` commits exactly the state produced by the storage
loop and marks the cache key fresh. -/
theorem fetch_ok_characterization (db : DBState) (cache : CacheState) (wid : WalletId)
    (force_refresh : Bool) (tokens : List (String × ℚ)) (price : String → Option ℚ)
    (now : Nat) (w : WalletRow)
    (hw : db.wallets.find? (fun x => x.id == wid) = some w)
    (hchain : w.chain = "ethereum" ∨ w.chain = "solana")
    (hgo : force_refresh = true
      ∨ (cache_get cache (balances_cache_key wid)).getD false = false) :
    fetch_and_store_balances db cache wid force_refresh (Except.ok tokens) price true now
      = ⟨(store_balances wid price now tokens db).1,
          cache_set cache (balances_cache_key wid) true, 1,
          Except.ok (store_balances wid price now tokens db).2⟩ := by
  have hc : (w.chain == "ethereum" || w.chain == "solana") = true := by
    rcases hchain with h | h <;> simp [h]
  have hcond : (!force_refresh && (cache_get cache (balances_cache_key wid)).getD false)
      = false := by
    rcases hgo with h | h <;> simp [h]
  simp only [fetch_and_store_balances, hw, hcond, hc, Bool.false_eq_true, if_false, if_true]

/-- C2: a successful `fetch_and_store_balances` produces, for each distinct
token symbol in the adapter's returned mapping, exactly one `Balance` row
keyed by `(wallet_id, token_symbol, token_address = NULL)` holding the fetched
amount and computed USD value — in place when the row existed (the row count
grows only by the number of previously absent symbols) — and appends exactly
one new `BalanceHistory` row per symbol with the same symbol, amount and USD
value, unconditionally. -/
theorem c2_upsert_and_history (db : DBState) (cache : CacheState) (wid : WalletId)
    (force_refresh : Bool) (tokens : List (String × ℚ)) (price : String → Option ℚ)
    (now : Nat) (w : WalletRow)
    (hw : db.wallets.find? (fun x => x.id == wid) = some w)
    (hchain : w.chain = "ethereum" ∨ w.chain = "solana")
    (hgo : force_refresh = true
      ∨ (cache_get cache (balances_cache_key wid)).getD false = false)
    (hnd : (tokens.map Prod.fst).Nodup)
    (hinv : ∀ s, db.balances.countP (balanceKeyMatches wid s) ≤ 1) :
    (∀ tb, tb ∈ tokens →
        (fetch_and_store_balances db cache wid force_refresh (Except.ok tokens) price true
            now).db.balances.countP (balanceKeyMatches wid tb.1) = 1
        ∧ ∃ b, b ∈ (fetch_and_store_balances db cache wid force_refresh (Except.ok tokens)
              price true now).db.balances
            ∧ balanceKeyMatches wid tb.1 b = true ∧ b.balance = tb.2
            ∧ b.usd_value = compute_usd_value tb.2 (price tb.1)
            ∧ b.last_updated = now)
    ∧ (fetch_and_store_balances db cache wid force_refresh (Except.ok tokens) price true
          now).db.history
        = db.history ++ tokens.map (fun tb =>
            history_row wid tb.1 tb.2 (compute_usd_value tb.2 (price tb.1)) now)
    ∧ (fetch_and_store_balances db cache wid force_refresh (Except.ok tokens) price true
          now).db.balances.length
        = db.balances.length
          + (tokens.filter (fun tb => !(db.balances.any (balanceKeyMatches wid tb.1)))).length := by
  rw [fetch_ok_characterization db cache wid force_refresh tokens price now w hw hchain hgo]
  obtain ⟨-, hh, -, -, -, htok, hlen⟩ := store_balances_spec wid price now tokens db hnd hinv
  exact ⟨htok, hh, hlen⟩

/-- Witness for C2 at a concrete state: the adapter returns `ETH ↦ 1.5` and
`XYZ ↦ 1` for a wallet that already holds an `ETH` row; afterwards there is
exactly one `ETH` row (updated in place, `usd_value = 3000`), one new `XYZ`
row, and exactly one appended history row per symbol. -/
theorem c2_upsert_and_history_witness :
    ((fetch_and_store_balances
          ⟨[⟨7, "0xabc", "ethereum", none⟩], [⟨7, "ETH", none, 2, some 100, 5⟩], []⟩
          [] 7 true (Except.ok [("ETH", 3/2), ("XYZ", 1)])
          (fun s => if s = "ETH" then some 2000 else none) true 9).db.balances.countP
        (balanceKeyMatches 7 "ETH") = 1)
    ∧ (fetch_and_store_balances
          ⟨[⟨7, "0xabc", "ethereum", none⟩], [⟨7, "ETH", none, 2, some 100, 5⟩], []⟩
          [] 7 true (Except.ok [("ETH", 3/2), ("XYZ", 1)])
          (fun s => if s = "ETH" then some 2000 else none) true 9).db.history
        = [history_row 7 "ETH" (3/2) (some 3000) 9, history_row 7 "XYZ" 1 none 9]
    ∧ (fetch_and_store_balances
          ⟨[⟨7, "0xabc", "ethereum", none⟩], [⟨7, "ETH", none, 2, some 100, 5⟩], []⟩
          [] 7 true (Except.ok [("ETH", 3/2), ("XYZ", 1)])
          (fun s => if s = "ETH" then some 2000 else none) true 9).db.balances.length = 2 := by
  have h := c2_upsert_and_history
    ⟨[⟨7, "0xabc", "ethereum", none⟩], [⟨7, "ETH", none, 2, some 100, 5⟩], []⟩
    [] 7 true [("ETH", 3/2), ("XYZ", 1)]
    (fun s => if s = "ETH" then some 2000 else none) 9
    ⟨7, "0xabc", "ethereum", none⟩ (by decide) (Or.inl rfl) (Or.inl rfl)
    (by decide)
    (fun s => le_trans (List.countP_le_length _) (by simp))
  refine ⟨(h.1 ("ETH", 3/2) (by simp)).1, ?_, ?_⟩
  · rw [h.2.1]
    have e1 : (if ("ETH" : String) = "ETH" then (some (2000 : ℚ)) else none) = some 2000 :=
      if_pos rfl
    have e2 : (if ("XYZ" : String) = "ETH" then (some (2000 : ℚ)) else none) = none :=
      if_neg (by decide)
    simp only [List.map_cons, List.map_nil, List.nil_append, e1, e2, if_true]
    have e3 : compute_usd_value (3/2) (some (2000 : ℚ)) = some 3000 := by
      simp [compute_usd_value]
      norm_num
    have e4 : compute_usd_value 1 (none : Option ℚ) = none := rfl
    rw [e3, e4]
  · rw [h.2.2]
    decide

/-- C4: the price oracle's `get_price` never raises to its caller — an
unmapped symbol and any raised request error both yield `none` — and a
successful fetch stores, for a symbol the oracle could not price, the
`Balance` row with its `balance` set and `usd_value = NULL` instead of
failing the whole fetch. -/
theorem c4_price_absent_degrades (sym : String) (http : Except NetErr (Option ℚ))
    (db : DBState) (cache : CacheState) (wid : WalletId) (force_refresh : Bool)
    (tokens : List (String × ℚ)) (price : String → Option ℚ) (now : Nat)
    (w : WalletRow) (tb : String × ℚ)
    (hw : db.wallets.find? (fun x => x.id == wid) = some w)
    (hchain : w.chain = "ethereum" ∨ w.chain = "solana")
    (hgo : force_refresh = true
      ∨ (cache_get cache (balances_cache_key wid)).getD false = false)
    (hnd : (tokens.map Prod.fst).Nodup)
    (hinv : ∀ s, db.balances.countP (balanceKeyMatches wid s) ≤ 1)
    (htb : tb ∈ tokens) (hp : price tb.1 = none) :
    (TOKEN_MAP.lookup (pyUpper sym) = none → get_price none sym http = none)
    ∧ (∀ e, http = Except.error e → get_price none sym http = none)
    ∧ ∃ b, b ∈ (fetch_and_store_balances db cache wid force_refresh (Except.ok tokens)
          price true now).db.balances
        ∧ balanceKeyMatches wid tb.1 b = true ∧ b.balance = tb.2 ∧ b.usd_value = none := by
  refine ⟨?_, ?_, ?_⟩
  · intro hmap
    simp [get_price, price_cache_hit, hmap]
  · intro e he
    subst he
    simp only [get_price, price_cache_hit, Bool.false_eq_true, if_false]
    cases List.lookup (pyUpper sym) TOKEN_MAP <;> rfl
  · rw [fetch_ok_characterization db cache wid force_refresh tokens price now w hw hchain hgo]
    obtain ⟨-, -, -, -, -, htok, -⟩ := store_balances_spec wid price now tokens db hnd hinv
    obtain ⟨-, b, hbmem, hbkey, hbbal, hbusd, -⟩ := htok tb htb
    exact ⟨b, hbmem, hbkey, hbbal, by rw [hbusd, hp]; rfl⟩

/-- Witness for C4 at a concrete state: the symbol `XYZ` is unmapped, a
request error yields `none`, and a fetch whose oracle returned `none` stores
the row with `balance = 1` and a `NULL` USD value. -/
theorem c4_price_absent_degrades_witness :
    get_price none "XYZ" (Except.error NetErr.timeout) = none
    ∧ ∃ b, b ∈ (fetch_and_store_balances ⟨[⟨7, "0xabc", "ethereum", none⟩], [], []⟩ [] 7 true
          (Except.ok [("XYZ", 1)]) (fun _ => none) true 9).db.balances
        ∧ balanceKeyMatches 7 "XYZ" b = true ∧ b.balance = 1 ∧ b.usd_value = none := by
  have h := c4_price_absent_degrades "XYZ" (Except.error NetErr.timeout)
    ⟨[⟨7, "0xabc", "ethereum", none⟩], [], []⟩ [] 7 true [("XYZ", 1)] (fun _ => none) 9
    ⟨7, "0xabc", "ethereum", none⟩ ("XYZ", 1) (by decide) (Or.inl rfl) (Or.inl rfl)
    (by decide) (fun s => by simp) (by simp) rfl
  exact ⟨h.2.1 NetErr.timeout rfl, h.2.2⟩

/-- C5: `get_portfolio_summary` is a pure read (a function of the database
state returning only a summary, issuing no adapter calls and no writes by
construction); each wallet's subtotal is the sum of `usd_value` over that
wallet's `Balance` rows with `NULL` as 0; `total_usd_value` is the sum of the
subtotals over all wallets; and if two states agree on all balance rows other
than wallet `wid`'s, every other wallet's rows and subtotal are unchanged and
the grand totals differ exactly by the change in `wid`'s subtotal (once per
occurrence of `wid` in the wallet table). -/
theorem c5_portfolio_pure_sum (db db' : DBState) (wid : WalletId)
    (hw : db'.wallets = db.wallets)
    (hb : db'.balances.filter (fun b => !(b.wallet_id == wid))
        = db.balances.filter (fun b => !(b.wallet_id == wid))) :
    (get_portfolio_summary db).total_wallets = db.wallets.length
    ∧ (∀ v, wallet_subtotal db v
        = ((db.balances.filter (fun b => b.wallet_id == v)).map
            (fun b => b.usd_value.getD 0)).sum)
    ∧ (get_portfolio_summary db).total_usd_value
        = (db.wallets.map (fun w => wallet_subtotal db w.id)).sum
    ∧ (∀ v, v ≠ wid → get_wallet_balances db' v = get_wallet_balances db v
        ∧ wallet_subtotal db' v = wallet_subtotal db v)
    ∧ (get_portfolio_summary db').total_usd_value - (get_portfolio_summary db).total_usd_value
        = ((db.wallets.filter (fun w => w.id == wid)).length : ℚ)
            * (wallet_subtotal db' wid - wallet_subtotal db wid) := by
  have hsubt : ∀ (dbx : DBState) (v : WalletId), wallet_subtotal dbx v
      = ((dbx.balances.filter (fun b => b.wallet_id == v)).map
          (fun b => b.usd_value.getD 0)).sum := by
    intro dbx v
    unfold wallet_subtotal get_wallet_balances
    rw [foldl_add_eq_sum, zero_add]
  have htot : ∀ dbx : DBState, (get_portfolio_summary dbx).total_usd_value
      = (dbx.wallets.map (fun w => wallet_subtotal dbx w.id)).sum := by
    intro dbx
    unfold get_portfolio_summary
    rw [foldl_add_eq_sum, zero_add]
  have hrows : ∀ v, v ≠ wid → get_wallet_balances db' v = get_wallet_balances db v := by
    intro v hv
    unfold get_wallet_balances
    rw [filter_wallet_through_ne db'.balances hv, filter_wallet_through_ne db.balances hv, hb]
  have hsub : ∀ v, v ≠ wid → wallet_subtotal db' v = wallet_subtotal db v := by
    intro v hv
    rw [hsubt, hsubt]
    have := hrows v hv
    unfold get_wallet_balances at this
    rw [this]
  refine ⟨rfl, hsubt db, htot db, fun v hv => ⟨hrows v hv, hsub v hv⟩, ?_⟩
  rw [htot db', htot db, hw]
  exact sum_map_diff wid (wallet_subtotal db' wid - wallet_subtotal db wid)
    (fun w => wallet_subtotal db' w.id) (fun w => wallet_subtotal db w.id)
    (fun w hwi => hsub w.id hwi)
    (fun w hwi => by simp only []; rw [hwi]) db.wallets

/-- Witness for C5 at concrete states: two wallets; changing only wallet 7's
rows leaves wallet 8's rows and subtotal unchanged, and moves the grand total
by exactly the change in wallet 7's subtotal. -/
theorem c5_portfolio_pure_sum_witness :
    wallet_subtotal
        ⟨[⟨7, "a", "ethereum", none⟩, ⟨8, "b", "solana", none⟩],
          [⟨7, "ETH", none, 1, some 5, 6⟩, ⟨8, "SOL", none, 1, some 4, 6⟩], []⟩ 8
      = wallet_subtotal
        ⟨[⟨7, "a", "ethereum", none⟩, ⟨8, "b", "solana", none⟩],
          [⟨7, "ETH", none, 1, some 3, 5⟩, ⟨8, "SOL", none, 1, some 4, 6⟩], []⟩ 8
    ∧ (get_portfolio_summary
          ⟨[⟨7, "a", "ethereum", none⟩, ⟨8, "b", "solana", none⟩],
            [⟨7, "ETH", none, 1, some 5, 6⟩, ⟨8, "SOL", none, 1, some 4, 6⟩], []⟩).total_usd_value
        - (get_portfolio_summary
          ⟨[⟨7, "a", "ethereum", none⟩, ⟨8, "b", "solana", none⟩],
            [⟨7, "ETH", none, 1, some 3, 5⟩, ⟨8, "SOL", none, 1, some 4, 6⟩], []⟩).total_usd_value
      = ((([⟨7, "a", "ethereum", none⟩, ⟨8, "b", "solana", none⟩] : List WalletRow).filter
            (fun w => w.id == 7)).length : ℚ)
          * (wallet_subtotal
              ⟨[⟨7, "a", "ethereum", none⟩, ⟨8, "b", "solana", none⟩],
                [⟨7, "ETH", none, 1, some 5, 6⟩, ⟨8, "SOL", none, 1, some 4, 6⟩], []⟩ 7
            - wallet_subtotal
              ⟨[⟨7, "a", "ethereum", none⟩, ⟨8, "b", "solana", none⟩],
                [⟨7, "ETH", none, 1, some 3, 5⟩, ⟨8, "SOL", none, 1, some 4, 6⟩], []⟩ 7) := by
  have h := c5_portfolio_pure_sum
    ⟨[⟨7, "a", "ethereum", none⟩, ⟨8, "b", "solana", none⟩],
      [⟨7, "ETH", none, 1, some 3, 5⟩, ⟨8, "SOL", none, 1, some 4, 6⟩], []⟩
    ⟨[⟨7, "a", "ethereum", none⟩, ⟨8, "b", "solana", none⟩],
      [⟨7, "ETH", none, 1, some 5, 6⟩, ⟨8, "SOL", none, 1, some 4, 6⟩], []⟩
    7 rfl rfl
  exact ⟨(h.2.2.2.1 8 (by decide)).2, h.2.2.2.2⟩

/-- C6 counterexample: with no configured RPC URL, the Starknet adapter's
token-balance operation returns `Decimal(0)` (an `ok` zero, not a
configuration error), and its whole-wallet fetch returns the empty mapping —
contradicting "every balance operation fails fast with a configuration error
rather than returning a zero or empty result". -/
theorem c6_counterexample_starknet_zero :
    (starknet_get_balance none (Except.ok [])).value = Except.ok 0
    ∧ starknet_get_wallet_balances none (fun _ => Except.error NetErr.connectionError)
        = ⟨Except.ok [], 0⟩
    ∧ (starknet_get_balance none (Except.ok [])).value
        ≠ Except.error (NetErr.notConfigured "Starknet RPC URL not configured") := by
  refine ⟨rfl, rfl, ?_⟩
  intro h
  exact Except.noConfusion h

/-- C6 (amended): when the client or endpoint could not be established, every
balance operation of the Ethereum adapter (native, token, whole-wallet), of
the Solana adapter (native, token, whole-wallet) and of the Cosmos adapter
(all-balances, whole-wallet) fails fast with a configuration error and
performs no network I/O; the Starknet adapter also performs no network I/O
but returns `Decimal(0)` for a token balance and an empty mapping for a
whole-wallet fetch instead of raising. -/
theorem c6_unconfigured_fail_fast (rpcN : Except NetErr Nat) (d : Nat)
    (rpcQ : Except NetErr ℚ) (rpcO : Except NetErr (Option Nat))
    (rpcU : Except NetErr Unit) (rpcC : Except NetErr (List (String × Nat)))
    (chain : String)
    (rpcL : Except NetErr (List Nat)) (rpcF : String → Except NetErr (List Nat)) :
    eth_get_eth_balance none rpcN
        = ⟨Except.error (NetErr.notConfigured ethNotConfiguredMsg), 0⟩
    ∧ eth_get_erc20_balance none rpcN d
        = ⟨Except.error (NetErr.notConfigured ethNotConfiguredMsg), 0⟩
    ∧ eth_get_wallet_balances none rpcQ
        = ⟨Except.error (NetErr.notConfigured ethNotConfiguredMsg), 0⟩
    ∧ solana_get_sol_balance none rpcO
        = ⟨Except.error (NetErr.notConfigured "Solana service not connected"), 0⟩
    ∧ solana_get_token_accounts none rpcU
        = ⟨Except.error (NetErr.notConfigured "Solana service not connected"), 0⟩
    ∧ solana_get_wallet_balances none rpcO rpcU
        = ⟨Except.error (NetErr.notConfigured "Solana service not connected"), 0⟩
    ∧ cosmos_get_all_balances chain none rpcC
        = ⟨Except.error (NetErr.notConfigured ("Unsupported Cosmos chain: " ++ chain)), 0⟩
    ∧ cosmos_get_wallet_balances chain none rpcC
        = ⟨Except.error (NetErr.notConfigured ("Unsupported Cosmos chain: " ++ chain)), 0⟩
    ∧ starknet_get_balance none rpcL = ⟨Except.ok 0, 0⟩
    ∧ starknet_get_wallet_balances none rpcF = ⟨Except.ok [], 0⟩ :=
  ⟨rfl, rfl, rfl, rfl, rfl, rfl, rfl, rfl, rfl, rfl⟩

/-- C7 counterexample: the tenacity decorator used by every service retries on
ANY exception, so a non-transient configuration error on the first attempt is
retried (attempt 2 runs and its value is returned); and the Starknet adapter
catches a transient transport error inside the retried function and returns
`Decimal(0)`, so the failure is neither retried nor surfaced; the price
service likewise swallows the transport error and returns `none`. -/
theorem c7_counterexample_retry_predicate :
    tenacity_retry3 (fun n => if n = 1
        then Except.error (NetErr.notConfigured ethNotConfiguredMsg)
        else Except.ok (42 : Nat)) = Except.ok 42
    ∧ tenacity_attempts_used (fun n => if n = 1
        then Except.error (NetErr.notConfigured ethNotConfiguredMsg)
        else Except.ok (42 : Nat)) = 2
    ∧ (starknet_get_balance (some "https://rpc") (Except.error NetErr.timeout)).value
        = Except.ok 0
    ∧ get_price none "ETH" (Except.error NetErr.timeout) = none := by
  exact ⟨rfl, rfl, rfl, rfl⟩

/-- C7 (amended): the decorated calls make at most 3 attempts with waits of
`min 10 (max 2 (2 ^ n))` seconds after the `n`-th failure (so the first wait
is 2s and every wait lies in [2s, 10s]), the last error is surfaced only after the third failed
attempt — but a retry is triggered by ANY raised exception, not only transient
transport errors; and the Starknet adapter and the price service catch
transport errors inside the retried function (returning `Decimal(0)` / `none`),
so for them transient failures are neither retried nor surfaced. -/
theorem c7_retry_policy :
    (∀ (α : Type) (attempts : Nat → Except NetErr α) (a : α),
        attempts 1 = Except.ok a → tenacity_retry3 attempts = Except.ok a)
    ∧ (∀ (α : Type) (attempts : Nat → Except NetErr α) (e : NetErr) (a : α),
        attempts 1 = Except.error e → attempts 2 = Except.ok a →
          tenacity_retry3 attempts = Except.ok a)
    ∧ (∀ (α : Type) (attempts : Nat → Except NetErr α) (e1 e2 : NetErr),
        attempts 1 = Except.error e1 → attempts 2 = Except.error e2 →
          tenacity_retry3 attempts = attempts 3)
    ∧ (∀ (α : Type) (attempts : Nat → Except NetErr α), tenacity_attempts_used attempts ≤ 3)
    ∧ tenacity_wait 1 = 2
    ∧ (∀ n : Nat, 2 ≤ tenacity_wait n ∧ tenacity_wait n ≤ 10)
    ∧ (∀ (u : String) (e : NetErr),
        (starknet_get_balance (some u) (Except.error e)).value = Except.ok 0)
    ∧ (∀ (sym : String) (e : NetErr), get_price none sym (Except.error e) = none) := by
  refine ⟨?_, ?_, ?_, ?_, rfl, ?_, ?_, ?_⟩
  · intro α attempts a h1
    unfold tenacity_retry3
    rw [h1]
  · intro α attempts e a h1 h2
    unfold tenacity_retry3
    rw [h1, h2]
  · intro α attempts e1 e2 h1 h2
    unfold tenacity_retry3
    rw [h1, h2]
  · intro α attempts
    unfold tenacity_attempts_used
    cases attempts 1 <;> cases attempts 2 <;> simp
  · intro n
    unfold tenacity_wait
    constructor
    · exact le_min (by norm_num) (le_max_left 2 (2 ^ n))
    · exact min_le_left 10 _
  · intro u e
    rfl
  · intro sym e
    simp only [get_price, price_cache_hit, Bool.false_eq_true, if_false]
    cases List.lookup (pyUpper sym) TOKEN_MAP <;> rfl

/-- Witness for C7: a call succeeding on the first attempt returns its value;
a call failing once and succeeding on the second attempt returns the second
value; the waits after the first and second failures are 2s and within
bounds. -/
theorem c7_retry_policy_witness :
    tenacity_retry3 (fun _ => (Except.ok 5 : Except NetErr Nat)) = Except.ok 5
    ∧ tenacity_retry3 (fun n => if n = 1 then (Except.error NetErr.timeout : Except NetErr Nat)
        else Except.ok 7) = Except.ok 7
    ∧ 2 ≤ tenacity_wait 2 ∧ tenacity_wait 2 ≤ 10 := by
  refine ⟨c7_retry_policy.1 Nat (fun _ => Except.ok 5) 5 rfl,
    c7_retry_policy.2.1 Nat _ NetErr.timeout 7 rfl rfl,
    (c7_retry_policy.2.2.2.2.2.1 2).1, (c7_retry_policy.2.2.2.2.2.1 2).2⟩

/-- C8 counterexample: Python `decimal` division rounds to the default
context's 28 significant digits, so the conversion of a raw amount with 29
significant digits is NOT the exact quotient: `(10^28 + 1) / 10^18` is
rounded to `10^10`, contradicting "arbitrary-precision decimal arithmetic"
(no rounding drift). -/
theorem c8_counterexample_precision :
    pyDecimalDivPow10 10000000000000000000000000001 18 = 10000000000
    ∧ pyDecimalDivPow10 10000000000000000000000000001 18
        ≠ ((10000000000000000000000000001 : Nat) : ℚ) / 10 ^ 18 := by
  have hd : decimalDigits 10000000000000000000000000001 = 29 := by decide
  have hr : roundHalfEvenDiv 10000000000000000000000000001 1
      = 1000000000000000000000000000 := by decide
  have h1 : pyDecimalDivPow10 10000000000000000000000000001 18
      = ((1000000000000000000000000000 * 10 ^ 1 : Nat) : ℚ) / 10 ^ 18 := by
    simp only [pyDecimalDivPow10]
    rw [hd]
    norm_num [hr]
  constructor
  · rw [h1]
    push_cast
    norm_num
  · rw [h1]
    push_cast
    norm_num

/-- C8 (amended): the Starknet adapter reconstructs the two-word `[low, high]`
`uint256` exactly as `low + high * 2 ^ 128`, and every adapter converts a raw
smallest-unit integer amount by dividing by `10 ^ decimals` in decimal (never
binary floating point) arithmetic; that division is exact whenever the raw
amount has at most 28 significant digits (the default Python `decimal`
context precision), and rounds half-even beyond that. -/
theorem c8_reconstruction_and_precision :
    (∀ low high : Nat, starknet_combine_u256 low high = low + high * 2 ^ 128)
    ∧ (∀ low high : Nat, starknet_parse_result [low, high]
        = pyDecimalDivPow10 (low + high * 2 ^ 128) 18)
    ∧ (∀ raw d : Nat, decimalDigits raw ≤ 28 →
        pyDecimalDivPow10 raw d = (raw : ℚ) / 10 ^ d)
    ∧ (∀ wei : Nat, (eth_get_eth_balance (some ()) (Except.ok wei)).value
        = Except.ok (pyDecimalDivPow10 wei 18))
    ∧ (∀ lamports : Nat, (solana_get_sol_balance (some ()) (Except.ok (some lamports))).value
        = Except.ok (pyDecimalDivPow10 lamports 9)) := by
  refine ⟨?_, ?_, ?_, fun wei => rfl, fun lamports => rfl⟩
  · intro low high
    unfold starknet_combine_u256
    rw [Nat.shiftLeft_eq]
  · intro low high
    show (if ([low, high] : List Nat).length = 0 then (0 : ℚ)
        else pyDecimalDivPow10
          (starknet_combine_u256 (([low, high] : List Nat).getD 0 0)
            (if 1 < ([low, high] : List Nat).length then ([low, high] : List Nat).getD 1 0 else 0))
          18)
      = pyDecimalDivPow10 (low + high * 2 ^ 128) 18
    norm_num [starknet_combine_u256, Nat.shiftLeft_eq]
  · intro raw d h
    unfold pyDecimalDivPow10
    simp [h]

/-- Witness for C8: a raw wei amount of 1.5·10^18 has 19 significant digits,
so its conversion is the exact quotient. -/
theorem c8_reconstruction_and_precision_witness :
    decimalDigits 1500000000000000000 ≤ 28
    ∧ pyDecimalDivPow10 1500000000000000000 18
        = ((1500000000000000000 : Nat) : ℚ) / 10 ^ 18 :=
  ⟨by decide, c8_reconstruction_and_precision.2.2.1 1500000000000000000 18 (by decide)⟩

/-- C9: every `create_wallet` outcome preserves the global uniqueness of
`(address, chain)`; any failing `create_wallet` leaves the wallet table
unchanged (the insert is rolled back); and creating a wallet whose normalised
`(address, chain)` pair already exists fails with an already-exists error and
changes nothing, so no reachable state holds two wallets with the same address
and chain. -/
theorem c9_address_chain_unique (db : DBState) (newId : WalletId) (address chain : String)
    (label : Option String) (hu : wallet_pair_unique db) :
    wallet_pair_unique (create_wallet db newId address chain label).1
    ∧ (∀ e, (create_wallet db newId address chain label).2 = Except.error e →
        (create_wallet db newId address chain label).1 = db)
    ∧ (chain = "ethereum" → ethereum_is_valid_address address = true →
        db.wallets.any (fun w => w.address == checksum_address address && w.chain == chain)
          = true →
        create_wallet db newId address chain label
          = (db, Except.error (CreateErr.alreadyExists (checksum_address address) chain)))
    ∧ (chain = "solana" → solana_is_valid_address address = true →
        db.wallets.any (fun w => w.address == address && w.chain == chain) = true →
        create_wallet db newId address chain label
          = (db, Except.error (CreateErr.alreadyExists address chain))) := by
  by_cases hch : chain = "ethereum"
  · subst hch
    by_cases hv : ethereum_is_valid_address address = true
    · by_cases hdup : db.wallets.any
          (fun w => w.address == checksum_address address && w.chain == "ethereum") = true
      · have hcw : create_wallet db newId address "ethereum" label
            = (db, Except.error
                (CreateErr.alreadyExists (checksum_address address) "ethereum")) := by
          simp only [create_wallet, if_pos rfl, hv, if_true, hdup]
        rw [hcw]
        exact ⟨hu, fun e _ => rfl, fun _ _ _ => rfl,
          fun hsol => absurd hsol (by decide)⟩
      · have hcw : create_wallet db newId address "ethereum" label
            = ({ db with wallets := db.wallets
                  ++ [⟨newId, checksum_address address, "ethereum", label⟩] },
               Except.ok ⟨newId, checksum_address address, "ethereum", label⟩) := by
          simp only [create_wallet, if_pos rfl, hv, if_true, hdup, Bool.false_eq_true, if_false]
        rw [hcw]
        refine ⟨?_, ?_, ?_, ?_⟩
        · intro a c
          exact wallet_pair_unique_append db.wallets
            ⟨newId, checksum_address address, "ethereum", label⟩ hu
            (by rw [Bool.not_eq_true] at hdup; exact hdup) a c
        · intro e he
          cases he
        · intro _ _ hany
          exact absurd hany hdup
        · intro hsol
          exact absurd hsol (by decide)
    · have hcw : create_wallet db newId address "ethereum" label
          = (db, Except.error (CreateErr.invalidAddress "ethereum")) := by
        simp only [create_wallet, if_pos rfl, hv, Bool.false_eq_true, if_false, if_true]
      rw [hcw]
      exact ⟨hu, fun e _ => rfl, fun _ hv' _ => absurd hv' hv,
        fun hsol => absurd hsol (by decide)⟩
  · by_cases hsol : chain = "solana"
    · subst hsol
      by_cases hv : solana_is_valid_address address = true
      · by_cases hdup : db.wallets.any
            (fun w => w.address == address && w.chain == "solana") = true
        · have hcw : create_wallet db newId address "solana" label
              = (db, Except.error (CreateErr.alreadyExists address "solana")) := by
            simp only [create_wallet, if_neg (by decide : ¬("solana" = "ethereum")),
              if_pos rfl, hv, if_true, hdup]
          rw [hcw]
          exact ⟨hu, fun e _ => rfl, fun heth => absurd heth (by decide),
            fun _ _ _ => rfl⟩
        · have hcw : create_wallet db newId address "solana" label
              = ({ db with wallets := db.wallets ++ [⟨newId, address, "solana", label⟩] },
                 Except.ok ⟨newId, address, "solana", label⟩) := by
            simp only [create_wallet, if_neg (by decide : ¬("solana" = "ethereum")),
              if_pos rfl, hv, if_true, hdup, Bool.false_eq_true, if_false]
          rw [hcw]
          refine ⟨?_, ?_, ?_, ?_⟩
          · intro a c
            exact wallet_pair_unique_append db.wallets ⟨newId, address, "solana", label⟩ hu
              (by rw [Bool.not_eq_true] at hdup; exact hdup) a c
          · intro e he
            cases he
          · intro heth
            exact absurd heth (by decide)
          · intro _ _ hany
            exact absurd hany hdup
      · have hcw : create_wallet db newId address "solana" label
            = (db, Except.error (CreateErr.invalidAddress "solana")) := by
          simp only [create_wallet, if_neg (by decide : ¬("solana" = "ethereum")),
            if_pos rfl, hv, Bool.false_eq_true, if_false, if_true]
        rw [hcw]
        exact ⟨hu, fun e _ => rfl, fun heth => absurd heth (by decide),
          fun _ hv' _ => absurd hv' hv⟩
    · have hcw : create_wallet db newId address chain label
          = (db, Except.error (CreateErr.unsupportedChain chain)) := by
        simp only [create_wallet, if_neg hch, if_neg hsol]
      rw [hcw]
      exact ⟨hu, fun e _ => rfl, fun heth => absurd heth hch, fun hsol' => absurd hsol' hsol⟩

set_option maxRecDepth 16000 in
/-- Witness for C9 at a concrete state: one wallet already stores the EIP-55
form of an address on chain ethereum; registering the same address in
different letter case fails with an already-exists error and leaves the table
unchanged, and uniqueness is preserved. -/
theorem c9_address_chain_unique_witness :
    wallet_pair_unique (create_wallet
        ⟨[⟨1, "0x5aAeb6053F3E94C9b9A09f33669435E7Ef1BeAed", "ethereum", none⟩], [], []⟩
        2 "0x5AAEB6053F3E94C9B9A09F33669435E7EF1BEAED" "ethereum" none).1
    ∧ create_wallet
        ⟨[⟨1, "0x5aAeb6053F3E94C9b9A09f33669435E7Ef1BeAed", "ethereum", none⟩], [], []⟩
        2 "0x5AAEB6053F3E94C9B9A09F33669435E7EF1BEAED" "ethereum" none
      = (⟨[⟨1, "0x5aAeb6053F3E94C9b9A09f33669435E7Ef1BeAed", "ethereum", none⟩], [], []⟩,
         Except.error (CreateErr.alreadyExists
           "0x5aAeb6053F3E94C9b9A09f33669435E7Ef1BeAed" "ethereum")) := by
  have h := c9_address_chain_unique
    ⟨[⟨1, "0x5aAeb6053F3E94C9b9A09f33669435E7Ef1BeAed", "ethereum", none⟩], [], []⟩
    2 "0x5AAEB6053F3E94C9B9A09F33669435E7EF1BEAED" "ethereum" none
    (fun a c => le_trans (List.countP_le_length _) (by simp))
  have hchk : checksum_address "0x5AAEB6053F3E94C9B9A09F33669435E7EF1BEAED"
      = "0x5aAeb6053F3E94C9b9A09f33669435E7Ef1BeAed" := by decide
  have h3 := h.2.2.1 rfl (by decide) (by rw [hchk]; decide)
  rw [hchk] at h3
  exact ⟨h.1, h3⟩

/-- C10: for every valid Ethereum address accepted by `create_wallet` with
chain ethereum (and no existing row for the pair), the wallet is stored with
the EIP-55 checksummed form of the address, not the caller's input — so the
persisted address may differ in letter case from what the caller registered. -/
theorem c10_stores_checksummed (db : DBState) (newId : WalletId) (address : String)
    (label : Option String)
    (hvalid : ethereum_is_valid_address address = true)
    (hnodup : db.wallets.any
        (fun w => w.address == checksum_address address && w.chain == "ethereum") = false) :
    create_wallet db newId address "ethereum" label
      = ({ db with wallets := db.wallets
            ++ [⟨newId, checksum_address address, "ethereum", label⟩] },
         Except.ok ⟨newId, checksum_address address, "ethereum", label⟩) := by
  simp only [create_wallet, if_pos rfl, hvalid, if_true, hnodup, Bool.false_eq_true, if_false]

set_option maxRecDepth 16000 in
/-- Witness for C10: registering the all-lowercase form of the EIP-55 example
address stores its mixed-case checksum form, which differs from the input. -/
theorem c10_stores_checksummed_witness :
    ethereum_is_valid_address "0x5aaeb6053f3e94c9b9a09f33669435e7ef1beaed" = true
    ∧ (create_wallet ⟨[], [], []⟩ 1 "0x5aaeb6053f3e94c9b9a09f33669435e7ef1beaed"
        "ethereum" none).1.wallets
      = [⟨1, "0x5aAeb6053F3E94C9b9A09f33669435E7Ef1BeAed", "ethereum", none⟩]
    ∧ checksum_address "0x5aaeb6053f3e94c9b9a09f33669435e7ef1beaed"
        ≠ "0x5aaeb6053f3e94c9b9a09f33669435e7ef1beaed" := by
  refine ⟨by decide, ?_, by decide⟩
  rw [c10_stores_checksummed ⟨[], [], []⟩ 1 "0x5aaeb6053f3e94c9b9a09f33669435e7ef1beaed" none
    (by decide) (by decide)]
  decide
